import Mathlib

/-!
Shallow embedding of the honeypot-checker core (src/analysis/contracts_analyzer.py,
src/analysis/wallet_analyzer.py, src/helpers/etherscan_api.py, src/honeypot_checker.py)
and proofs about it.

Machine numbers from the chain are unbounded non-negative integers in the source
(Python `int` parsed from decimal strings), so they are modelled as `Nat`;
running balances can go negative and are `Int`; Python float arithmetic on
these values is modelled exactly over `Rat`.
-/

namespace HoneypotChecker

/-- A token-transfer event as the Etherscan `tokentx` endpoint delivers it and the
analyzers consume it: `from_`/`to` endpoints, `value`, `gasPrice`, `gasUsed` and the
token `contractAddress`. -/
structure TransferRecord where
  from_ : String
  to_ : String
  value : ℕ
  gasPrice : ℕ
  gasUsed : ℕ
  contractAddress : String
deriving DecidableEq, Repr

/-- Outcome of one `requests.get` against the paginated `tokentx` endpoint, as
`ContractsAnalyzer.infer_tax` distinguishes them: a raised `RequestException`, a
non-200 HTTP status, an API reply with status ≠ "1", or a page of records. -/
inductive FetchOutcome where
  | raises
  | httpError (status_code : ℕ)
  | apiError
  | ok (transactions : List TransferRecord)
deriving DecidableEq, Repr

/-- Return type of `ContractsAnalyzer.infer_tax`, a `Union[str, float]`: an
error/reason string or a numeric percentage. -/
inductive TaxResult where
  | msg (s : String)
  | percent (q : ℚ)
deriving DecidableEq, Repr

/-- The gas-cost proxy ratio of one record: `(gasPrice * gasUsed) / value`
(contracts_analyzer.py line 126). Total over `ℚ`; the source divides only after
ruling out `value == 0`. -/
def tax_value (tx : TransferRecord) : ℚ :=
  ((tx.gasPrice : ℚ) * (tx.gasUsed : ℚ)) / (tx.value : ℚ)

/-- Round-half-to-even to an integer, the rounding the Python built-in `round`
specifies. -/
def roundHalfEven (q : ℚ) : ℤ :=
  if q - (⌊q⌋ : ℚ) < 1/2 then ⌊q⌋
  else if 1/2 < q - (⌊q⌋ : ℚ) then ⌊q⌋ + 1
  else if ⌊q⌋ % 2 = 0 then ⌊q⌋ else ⌊q⌋ + 1

/-- The Python `round(x, 2)`: round-half-to-even at two decimal places. -/
def round2 (q : ℚ) : ℚ := ((roundHalfEven (q * 100) : ℚ)) / 100

/-- One iteration of the transaction loop of `ContractsAnalyzer.infer_tax`
(contracts_analyzer.py lines 119-140): skip zero-value records, skip ratios
above 1, and attribute the rest to the requested action, accumulating
`(total_tax, tax_count)`. -/
def infer_tax_step (contract_address action : String) (acc : ℚ × ℕ)
    (tx : TransferRecord) : ℚ × ℕ :=
  if tx.value ≤ 0 then acc
  else if 1 < tax_value tx then acc
  else if action = "buy" ∧ tx.to_ ≠ contract_address then (acc.1 + tax_value tx, acc.2 + 1)
  else if action = "sell" ∧ tx.from_ ≠ contract_address then (acc.1 + tax_value tx, acc.2 + 1)
  else if action = "transfer" ∧ tx.from_ ≠ contract_address ∧ tx.to_ ≠ contract_address then
    (acc.1 + tax_value tx, acc.2 + 1)
  else acc

/-- The page number `ContractsAnalyzer.infer_tax` requests: its URL is built with
`page=1` (contracts_analyzer.py line 108). -/
def infer_tax_page : ℕ := 1

/-- The page size `ContractsAnalyzer.infer_tax` requests: `offset=1000`. -/
def infer_tax_offset : ℕ := 1000

/-- The ordering `ContractsAnalyzer.infer_tax` requests: `sort=desc`, newest first. -/
def infer_tax_sort : String := "desc"

/-- Embedding of `ContractsAnalyzer.infer_tax` (contracts_analyzer.py lines 96-154), as a
function of the fetch outcome per requested page number: it issues one request,
for page `infer_tax_page = 1`, folds the returned records, and returns the
rounded average percentage when some record counted, `0.0` otherwise; fetch
failures come back as strings, never as raised exceptions. -/
def infer_tax (fetch : ℕ → FetchOutcome) (contract_address action : String) : TaxResult :=
  match fetch infer_tax_page with
  | .raises => .msg "HTTP request failed"
  | .httpError code => .msg ("HTTP error: " ++ toString code)
  | .apiError => .msg "No relevant transactions found"
  | .ok transactions =>
    let r := transactions.foldl (infer_tax_step contract_address action) (0, 0)
    if 0 < r.2 then .percent (round2 (r.1 / (r.2 : ℚ) * 100)) else .percent 0

/-- A record with `value == 0`, which the filter of the estimator must skip. -/
def zeroValueTx : TransferRecord :=
  { from_ := "0xaaaa", to_ := "0xbbbb", value := 0, gasPrice := 21000, gasUsed := 50000,
    contractAddress := "0xtoken" }

/-- Modelled from the spec (§4.1 HistoricalTaxEstimator), for comparison with
`infer_tax`: "fetch up to a bounded number of pages (policy: 3 pages × up to 1000
records, newest-first)" and aggregate the same per-record filter/attribution over
all of them; with no qualifying record the spec returns
Unavailable("no qualifying transactions"). -/
def estimateTax_spec (fetch : ℕ → FetchOutcome) (contract_address action : String) :
    TaxResult :=
  let pageTxs : ℕ → List TransferRecord := fun p =>
    match fetch p with
    | .ok transactions => transactions
    | _ => []
  let transactions := pageTxs 1 ++ pageTxs 2 ++ pageTxs 3
  let r := transactions.foldl (infer_tax_step contract_address action) (0, 0)
  if 0 < r.2 then .percent (round2 (r.1 / (r.2 : ℚ) * 100))
  else .msg "no qualifying transactions"

/-- A record whose gas-cost ratio is `1/2`: value 100, gasPrice 1, gasUsed 50. -/
def txA : TransferRecord :=
  { from_ := "0xaaaa", to_ := "0xbbbb", value := 100, gasPrice := 1, gasUsed := 50,
    contractAddress := "0xcccc" }

/-- A record whose gas-cost ratio is exactly `1`: value 100, gasPrice 2, gasUsed 50. -/
def txB : TransferRecord :=
  { from_ := "0xaaaa", to_ := "0xbbbb", value := 100, gasPrice := 2, gasUsed := 50,
    contractAddress := "0xcccc" }

/-- A fetch behavior with `txA` on page 1, `txB` on page 2 and nothing further. -/
def fetchW : ℕ → FetchOutcome := fun p =>
  if p = 1 then .ok [txA] else if p = 2 then .ok [txB] else .ok []

/-- The per-record qualification rule the spec states for `estimateTax`: the
record counts toward `action` exactly when `value > 0`, the gas-cost ratio is at
most 1, and the endpoint condition of the action holds (buy: `to ≠ address`; sell:
`from ≠ address`; transfer: both). -/
def countsToward (contract_address action : String) (tx : TransferRecord) : Bool :=
  decide (0 < tx.value) && decide (tax_value tx ≤ 1) &&
    (if action = "buy" then decide (tx.to_ ≠ contract_address)
     else if action = "sell" then decide (tx.from_ ≠ contract_address)
     else if action = "transfer" then
       decide (tx.from_ ≠ contract_address) && decide (tx.to_ ≠ contract_address)
     else false)

/-! ## Wallet analyzer (src/analysis/wallet_analyzer.py) -/

/-- One holder account of the reconstructed ledger: running `balance` and the
`incoming`/`outgoing` transfer counts (the `defaultdict` entry of
`WalletAnalyzer.get_token_holders`). -/
structure HolderEntry where
  balance : ℤ
  incoming : ℕ
  outgoing : ℕ
deriving DecidableEq, Repr

/-- The holder ledger: an association list keyed by (lower-cased) address,
insertion-ordered like a Python dict. -/
abbrev HolderMap := List (String × HolderEntry)

/-- The `defaultdict` default entry: balance 0, no transfers seen. -/
def emptyHolder : HolderEntry := { balance := 0, incoming := 0, outgoing := 0 }

/-- Update of one `defaultdict` entry, `holder_data[k] = f(holder_data[k])`: update the entry in
place when the key is present, append a freshly defaulted one otherwise. -/
def updateHolder (m : HolderMap) (k : String) (f : HolderEntry → HolderEntry) :
    HolderMap :=
  match m with
  | [] => [(k, f emptyHolder)]
  | (k', e) :: rest =>
    if k' = k then (k', f e) :: rest else (k', e) :: updateHolder rest k f

/-- Folding one transfer into the ledger (wallet_analyzer.py lines 124-133):
the balance of the receiver is incremented by the value and its incoming count
bumped, the balance of the sender decremented and its outgoing count bumped; both endpoint
addresses are lower-cased first. -/
def apply_transfer (m : HolderMap) (tx : TransferRecord) : HolderMap :=
  let m1 := updateHolder m tx.to_.toLower fun e =>
    { e with balance := e.balance + (tx.value : ℤ), incoming := e.incoming + 1 }
  updateHolder m1 tx.from_.toLower fun e =>
    { e with balance := e.balance - (tx.value : ℤ), outgoing := e.outgoing + 1 }

/-- Folding a whole record sequence into the ledger, oldest first. -/
def fold_transfers (m : HolderMap) (txs : List TransferRecord) : HolderMap :=
  txs.foldl apply_transfer m

/-- Outcome of one page request inside `WalletAnalyzer.get_token_holders`: a
raised `RequestException`/`raise_for_status` failure, or a JSON reply carrying an
API status string and a result list. -/
inductive PageOutcome where
  | fetchError
  | page (status : String) (transactions : List TransferRecord)
deriving DecidableEq, Repr

/-- The `while True` pagination loop of `WalletAnalyzer.get_token_holders`
(wallet_analyzer.py lines 106-135), indexed by explicit fuel: `some m` means the
loop exited within `fuel` iterations with accumulated ledger `m` (it breaks on a
fetch error, a status other than "1", or an empty result list); `none` means it
was still running after `fuel` iterations. The source loop itself has no page
bound: each pass folds the page and moves to `page + 1`. -/
def get_token_holders_loop (pages : ℕ → PageOutcome) :
    ℕ → ℕ → HolderMap → Option HolderMap
  | 0, _, _ => none
  | fuel + 1, page, m =>
    match pages page with
    | .fetchError => some m
    | .page status transactions =>
      if status ≠ "1" ∨ transactions = [] then some m
      else get_token_holders_loop pages fuel (page + 1) (fold_transfers m transactions)

/-- Embedding of `WalletAnalyzer.get_token_holders`: run the pagination loop from page 1 with
an empty ledger, then drop the accounts whose balance is not positive
(wallet_analyzer.py line 138). -/
def get_token_holders (pages : ℕ → PageOutcome) (fuel : ℕ) : Option HolderMap :=
  (get_token_holders_loop pages fuel 1 []).map fun m =>
    m.filter fun p => decide (0 < p.2.balance)

/-- An endpoint that answers every page request with a successful, non-empty
page — the misbehaving collaborator of the liveness requirement. -/
def endlessPages : ℕ → PageOutcome := fun _ => .page "1" [txA]

/-- Sum of the balances over all accounts of a ledger; `analyze_holders` calls
this quantity `total_supply` (wallet_analyzer.py line 37). -/
def total_supply_of (holders_data : HolderMap) : ℤ :=
  (holders_data.map fun p => p.2.balance).sum

/-- Embedding of `WalletAnalyzer.detect_suspicious_wallets` (wallet_analyzer.py lines 140-165):
an address is flagged when its balance exceeds 5% of total supply, or it has more
than 5 incoming transfers, no outgoing ones, and a balance above 0.1% of total
supply. -/
def detect_suspicious_wallets (holders_data : HolderMap) (total_supply : ℤ) :
    List String :=
  let small_wallet_threshold : ℚ := (total_supply : ℚ) * 0.001
  let high_balance_threshold : ℚ := (total_supply : ℚ) * 0.05
  (holders_data.filter fun p =>
    decide ((p.2.balance : ℚ) > high_balance_threshold) ||
      (decide (p.2.incoming > 5) && decide (p.2.outgoing = 0) &&
        decide ((p.2.balance : ℚ) > small_wallet_threshold))).map Prod.fst

/-- The suspicious wallets of a ledger, at the total supply the analyzer computes
from that same ledger (wallet_analyzer.py line 39). -/
def suspicious_wallets_of (holders_data : HolderMap) : List String :=
  detect_suspicious_wallets holders_data (total_supply_of holders_data)

/-- The quantity `suspicious_ratio` (wallet_analyzer.py lines 40-41): flagged wallets over
holder count, `0` when there are no holders. -/
def suspicious_ratio_of (holders_data : HolderMap) : ℚ :=
  if 0 < holders_data.length then
    ((suspicious_wallets_of holders_data).length : ℚ) / (holders_data.length : ℚ)
  else 0

/-- The quantity `concentration_score` (wallet_analyzer.py lines 47-50): summed balance of the
flagged wallets over total supply, `0` when total supply is not positive. -/
def concentration_score_of (holders_data : HolderMap) : ℚ :=
  if 0 < total_supply_of holders_data then
    ((holders_data.filter fun p =>
        (suspicious_wallets_of holders_data).contains p.1).map
      fun p => (p.2.balance : ℚ)).sum / ((total_supply_of holders_data : ℤ) : ℚ)
  else 0

/-- The allow-list literal of `WalletAnalyzer.analyze_holders` (wallet_analyzer.py
lines 59-62): the checksummed USDT and USDC contract addresses, exactly as
written. -/
def whitelist : List String :=
  ["0xdAC17F958D2ee523a2206206994597C13D831ec7",
   "0xA0b86991C6218b36c1d19D4a2e9Eb0cE3606eb48"]

/-- The check `is_whitelisted = token_address in [...]`: Python list membership, an exact
string comparison against the two literals. -/
def is_whitelisted (token_address : String) : Bool := whitelist.contains token_address

/-- Constant `suspicious_threshold = 0.15` (wallet_analyzer.py line 43). -/
def suspicious_threshold : ℚ := 0.15

/-- Constant `low_holder_threshold = 100` (wallet_analyzer.py line 44). -/
def low_holder_threshold : ℕ := 100

/-- Constant `high_concentration_threshold = 0.9` (wallet_analyzer.py line 45). -/
def high_concentration_threshold : ℚ := 0.9

/-- The verdict decision chain of `WalletAnalyzer.analyze_holders`
(wallet_analyzer.py lines 58-73): allow-listed addresses are never honeypots;
otherwise the token is one when the holder count is below 100, the suspicious
ratio exceeds 0.15, or the concentration score exceeds 0.9. -/
def is_honeypot_policy (token_address : String) (holders_count : ℕ)
    (suspicious_ratio concentration_score : ℚ) : Bool :=
  if is_whitelisted token_address then false
  else if holders_count < low_holder_threshold ∨
      suspicious_ratio > suspicious_threshold ∨
      concentration_score > high_concentration_threshold then true
  else false

/-- The analysis record `WalletAnalyzer.analyze_holders` returns on success. -/
structure HoldersAnalysis where
  holders_analyzed : ℕ
  siphoned_wallets : ℕ
  is_honeypot : Bool
deriving DecidableEq, Repr

/-- The success path of `WalletAnalyzer.analyze_holders` (wallet_analyzer.py
lines 36-81) as a function of the reconstructed ledger: total supply, flagged
wallets, the two guarded ratios and the verdict chain. -/
def analyze_holders (token_address : String) (holders_data : HolderMap) :
    HoldersAnalysis :=
  { holders_analyzed := holders_data.length,
    siphoned_wallets := (suspicious_wallets_of holders_data).length,
    is_honeypot := is_honeypot_policy token_address holders_data.length
      (suspicious_ratio_of holders_data) (concentration_score_of holders_data) }

/-! ## Etherscan API helper (src/helpers/etherscan_api.py) and the source-code
status of the verdict (src/honeypot_checker.py lines 54-62). -/

/-- Outcome of the one `requests.get` inside `EtherscanAPI.get_contract_abi`: a
raised `ProxyError` (the only exception the source catches), any other raised
`RequestException` (uncaught there), or an HTTP reply with its status code, API
status string and result payload. -/
inductive AbiFetch where
  | proxyError
  | otherRequestError
  | http (status_code : ℕ) (api_status : String) (result : String)
deriving DecidableEq, Repr

/-- An exception crossing a modelled call boundary. -/
inductive PyError where
  | requestException
  | contractNotVerified
deriving DecidableEq, Repr

/-- What `EtherscanAPI.get_contract_abi` evaluates to: the parsed ABI payload, or
the error dictionary it builds on every failure it handles. -/
inductive AbiResult where
  | abi (s : String)
  | errorDict
deriving DecidableEq, Repr

/-- Embedding of `EtherscanAPI.get_contract_abi` (etherscan_api.py lines 46-84): status 200
with API status "1" yields the ABI; every other handled outcome yields the error
dictionary; only a raised `ProxyError` is caught, so any other request exception
propagates. `ContractNotVerifiedError` is never raised. -/
def get_contract_abi : AbiFetch → Except PyError AbiResult
  | .proxyError => .ok .errorDict
  | .otherRequestError => .error .requestException
  | .http status_code api_status result =>
    if status_code = 200 then
      if api_status = "1" then .ok (.abi result) else .ok .errorDict
    else .ok .errorDict

/-- Embedding of `EtherscanAPI.is_contract_verified` (etherscan_api.py lines 86-97): call
`get_contract_abi`; a normal return means `True`, a raised
`ContractNotVerifiedError` would mean `False`, anything else propagates. -/
def is_contract_verified (f : AbiFetch) : Except PyError Bool :=
  match get_contract_abi f with
  | .ok _ => .ok true
  | .error .contractNotVerified => .ok false
  | .error e => .error e

/-- The verdict field of `HoneypotChecker.analyze_address` (honeypot_checker.py
line 59): `"open_source" if results[0] else "not_verified"`. -/
def source_code_status (is_verified : Bool) : String :=
  if is_verified then "open_source" else "not_verified"

/-- The `source_code_status` the verdict carries, as a function of the ABI fetch
outcome: `analyze_address` feeds the result of `is_contract_verified` straight
into the field. -/
def source_status_of (f : AbiFetch) : Except PyError String :=
  (is_contract_verified f).map source_code_status

/-! ## Helper lemmas -/

/-- The loop body of `infer_tax` counts a record exactly when `countsToward`
holds, and then accumulates its gas-cost ratio and bumps the counter. -/
theorem infer_tax_step_eq (contract_address action : String) (acc : ℚ × ℕ)
    (tx : TransferRecord) :
    infer_tax_step contract_address action acc tx =
      if countsToward contract_address action tx then
        (acc.1 + tax_value tx, acc.2 + 1)
      else acc := by
  unfold infer_tax_step countsToward
  rcases Nat.eq_zero_or_pos tx.value with h0 | h0
  · simp [h0]
  · have h0' : ¬ tx.value ≤ 0 := by omega
    by_cases h1 : 1 < tax_value tx
    · simp [h0, h0', h1, not_le.mpr h1]
    · have h1' : tax_value tx ≤ 1 := not_lt.mp h1
      by_cases hbuy : action = "buy"
      · by_cases hto : tx.to_ = contract_address <;>
          simp [h0, h0', h1, h1', hbuy, hto]
      · by_cases hsell : action = "sell"
        · by_cases hfr : tx.from_ = contract_address <;>
            simp [h0, h0', h1, h1', hbuy, hsell, hfr]
        · by_cases htr : action = "transfer"
          · by_cases hfr : tx.from_ = contract_address
            · simp [h0, h0', h1, h1', hbuy, hsell, htr, hfr]
            · by_cases hto : tx.to_ = contract_address <;>
                simp [h0, h0', h1, h1', hbuy, hsell, htr, hfr, hto]
          · simp [h0, h0', h1, h1', hbuy, hsell, htr]

/-- The transaction loop of `infer_tax` is the fold it looks like: starting from
any accumulator it adds the summed gas-cost ratios and the count of the records
that qualify. -/
theorem foldl_infer_tax_step (contract_address action : String)
    (txs : List TransferRecord) :
    ∀ acc : ℚ × ℕ,
      txs.foldl (infer_tax_step contract_address action) acc =
        (acc.1 + ((txs.filter (countsToward contract_address action)).map tax_value).sum,
         acc.2 + (txs.filter (countsToward contract_address action)).length) := by
  induction txs with
  | nil => intro acc; simp
  | cons tx txs ih =>
    intro acc
    rw [List.foldl_cons, infer_tax_step_eq]
    by_cases h : countsToward contract_address action tx
    · rw [if_pos h, ih, List.filter_cons_of_pos h]
      simp only [List.map_cons, List.sum_cons, List.length_cons, Prod.mk.injEq]
      exact ⟨by ring, by omega⟩
    · rw [if_neg h, ih, List.filter_cons_of_neg h]

/-- A gas-cost ratio is never negative: it is a quotient of casts of naturals. -/
theorem tax_value_nonneg (tx : TransferRecord) : 0 ≤ tax_value tx := by
  unfold tax_value
  positivity

/-- A record that qualifies has a gas-cost ratio of at most 1. -/
theorem tax_value_le_one_of_countsToward (contract_address action : String)
    (tx : TransferRecord) (h : countsToward contract_address action tx = true) :
    tax_value tx ≤ 1 := by
  unfold countsToward at h
  simp only [Bool.and_eq_true, decide_eq_true_eq] at h
  exact h.1.2

/-- Rounding `roundHalfEven` never rounds a non-negative number below zero. -/
theorem roundHalfEven_nonneg (q : ℚ) (h : 0 ≤ q) : 0 ≤ roundHalfEven q := by
  unfold roundHalfEven
  have hf : (0 : ℤ) ≤ ⌊q⌋ := Int.floor_nonneg.mpr h
  split_ifs <;> omega

/-- Rounding `roundHalfEven` never rounds past an integer upper bound. -/
theorem roundHalfEven_le (q : ℚ) (n : ℤ) (h : q ≤ (n : ℚ)) : roundHalfEven q ≤ n := by
  have hf : ⌊q⌋ ≤ n := by
    have h2 := Int.floor_mono h
    simpa using h2
  unfold roundHalfEven
  by_cases he : ⌊q⌋ = n
  · have h1 : (n : ℚ) ≤ q := by
      rw [← he]; exact Int.floor_le q
    have hqn : q = (n : ℚ) := le_antisymm h h1
    have hq0 : q - (⌊q⌋ : ℚ) < 1/2 := by
      rw [hqn]
      rw [Int.floor_intCast]
      norm_num
    rw [if_pos hq0]
    exact hf
  · have hlt : ⌊q⌋ + 1 ≤ n := by omega
    split_ifs <;> omega

/-- Rounding `round2` of a non-negative number is non-negative. -/
theorem round2_nonneg (q : ℚ) (h : 0 ≤ q) : 0 ≤ round2 q := by
  unfold round2
  have h1 : (0 : ℤ) ≤ roundHalfEven (q * 100) := roundHalfEven_nonneg _ (by positivity)
  have h2 : (0 : ℚ) ≤ ((roundHalfEven (q * 100) : ℤ) : ℚ) := by exact_mod_cast h1
  positivity

/-- Rounding `round2` of a number at most 100 stays at most 100. -/
theorem round2_le_100 (q : ℚ) (h : q ≤ 100) : round2 q ≤ 100 := by
  unfold round2
  have h1 : q * 100 ≤ ((10000 : ℤ) : ℚ) := by push_cast; linarith
  have h2 : roundHalfEven (q * 100) ≤ 10000 := roundHalfEven_le _ _ h1
  have h3 : ((roundHalfEven (q * 100) : ℤ) : ℚ) ≤ 10000 := by exact_mod_cast h2
  linarith

/-- A defaultdict update that shifts the balance of one entry by `d` shifts the summed
balance of the ledger by `d`. -/
theorem total_supply_updateHolder (k : String) (f : HolderEntry → HolderEntry)
    (d : ℤ) (hf : ∀ e, (f e).balance = e.balance + d) (m : HolderMap) :
    total_supply_of (updateHolder m k f) = total_supply_of m + d := by
  induction m with
  | nil => simp [updateHolder, total_supply_of, hf, emptyHolder]
  | cons p rest ih =>
    obtain ⟨k', e⟩ := p
    by_cases hk : k' = k
    · simp only [updateHolder, if_pos hk, total_supply_of, List.map_cons,
        List.sum_cons, hf]
      unfold total_supply_of at *
      ring
    · simp only [updateHolder, if_neg hk, total_supply_of, List.map_cons,
        List.sum_cons] at ih ⊢
      rw [ih]
      ring

/-- Folding one transfer moves value between the two endpoint accounts and leaves
the summed balance unchanged. -/
theorem total_supply_apply_transfer (m : HolderMap) (tx : TransferRecord) :
    total_supply_of (apply_transfer m tx) = total_supply_of m := by
  unfold apply_transfer
  rw [total_supply_updateHolder _ _ (-(tx.value : ℤ)) (fun e => by simp; ring),
    total_supply_updateHolder _ _ ((tx.value : ℤ)) (fun e => by simp)]
  ring

/-- Folding any transfer sequence leaves the summed balance unchanged. -/
theorem total_supply_fold_transfers (txs : List TransferRecord) :
    ∀ m : HolderMap, total_supply_of (fold_transfers m txs) = total_supply_of m := by
  induction txs with
  | nil => intro m; rfl
  | cons tx txs ih =>
    intro m
    unfold fold_transfers at ih ⊢
    rw [List.foldl_cons, ih, total_supply_apply_transfer]

/-- Against the endpoint that always answers a successful non-empty page, the
pagination loop is still running after any number of iterations. -/
theorem get_token_holders_loop_endless (fuel : ℕ) :
    ∀ (page : ℕ) (m : HolderMap),
      get_token_holders_loop endlessPages fuel page m = none := by
  induction fuel with
  | zero => intro page m; rfl
  | succ n ih =>
    intro page m
    simp [get_token_holders_loop, endlessPages, ih]

/-! ## Claims -/

/-- Claim C1: evaluation of `infer_tax` at the failing input the claim describes.
On a transfer set in which every record has `value == 0` no record qualifies,
and the code returns the synthesized numeric `0.0` for every action — a
`percent`, not an Unavailable reason string as the claim requires. -/
theorem infer_tax_all_zero_value_returns_numeric_zero :
    infer_tax (fun _ => .ok [zeroValueTx]) "0xtoken" "buy" = .percent 0 ∧
    infer_tax (fun _ => .ok [zeroValueTx]) "0xtoken" "sell" = .percent 0 ∧
    infer_tax (fun _ => .ok [zeroValueTx]) "0xtoken" "transfer" = .percent 0 ∧
    ∀ s, TaxResult.percent 0 ≠ TaxResult.msg s := by
  refine ⟨?_, ?_, ?_, fun s h => TaxResult.noConfusion h⟩ <;>
    simp [infer_tax, infer_tax_page, infer_tax_step, zeroValueTx]

/-- Claim C2: for every non-allow-listed address the verdict chain returns
`is_honeypot = true` exactly when `holders_count < 100`, or
`suspicious_ratio > 0.15`, or `concentration_score > 0.9`; in particular
`(50, 0.2, 0.1)` gives `true` and `(500, 0.05, 0.3)` gives `false`. -/
theorem is_honeypot_policy_rules :
    (∀ (token_address : String) (holders_count : ℕ)
        (suspicious_ratio concentration_score : ℚ),
        is_whitelisted token_address = false →
        (is_honeypot_policy token_address holders_count
            suspicious_ratio concentration_score = true ↔
          (holders_count < 100 ∨ suspicious_ratio > 0.15 ∨ concentration_score > 0.9))) ∧
    is_honeypot_policy "0xa11ce" 50 0.2 0.1 = true ∧
    is_honeypot_policy "0xa11ce" 500 0.05 0.3 = false := by
  refine ⟨fun a hc sr cs hw => ?_, by decide, ?_⟩
  · simp only [is_honeypot_policy, hw, Bool.false_eq_true, if_false,
      suspicious_threshold, low_holder_threshold, high_concentration_threshold]
    split_ifs with hcond <;> simp [hcond]
  · have hw : is_whitelisted "0xa11ce" = false := by decide
    simp only [is_honeypot_policy, hw, Bool.false_eq_true, if_false,
      suspicious_threshold, low_holder_threshold, high_concentration_threshold]
    norm_num

/-- Claim C3, counterexample: the lower-cased spelling of the allow-listed USDT
address is not matched by the allow-list check (a case-sensitive Python `in`),
so an otherwise honeypot-triggering report yields `is_honeypot = true` where the
claim requires `false` for every casing. -/
theorem whitelist_lowercase_not_short_circuited :
    is_whitelisted "0xdac17f958d2ee523a2206206994597c13d831ec7" = false ∧
    is_honeypot_policy "0xdac17f958d2ee523a2206206994597c13d831ec7" 50 0.2 0.95 = true := by
  exact ⟨by decide, by decide⟩

/-- Claim C3, amended: only an address string exactly equal (case-sensitively) to
one of the two checksummed allow-list literals short-circuits the verdict to
`is_honeypot = false`, however honeypot-triggering the report is. -/
theorem whitelist_exact_match_short_circuits :
    (∀ (token_address : String) (holders_count : ℕ)
        (suspicious_ratio concentration_score : ℚ),
        is_whitelisted token_address = true →
        is_honeypot_policy token_address holders_count
          suspicious_ratio concentration_score = false) ∧
    is_honeypot_policy "0xdAC17F958D2ee523a2206206994597C13D831ec7" 50 0.2 0.95 = false ∧
    is_honeypot_policy "0xA0b86991C6218b36c1d19D4a2e9Eb0cE3606eb48" 50 0.2 0.95 = false := by
  refine ⟨fun a hc sr cs hw => ?_, by decide, by decide⟩
  simp [is_honeypot_policy, hw]

/-- Claim C4, counterexample: a qualifying record sitting on page 2 changes the
3-page aggregate the spec prescribes but not the estimate of the code — `infer_tax`
reads page 1 only, so it does not aggregate over up to 3 pages. -/
theorem infer_tax_ignores_later_pages :
    infer_tax fetchW "0xcccc" "buy" = .percent 50 ∧
    estimateTax_spec fetchW "0xcccc" "buy" = .percent 75 ∧
    TaxResult.percent 50 ≠ TaxResult.percent 75 := by
  refine ⟨?_, ?_, by norm_num⟩
  · simp [infer_tax, fetchW, infer_tax_page, infer_tax_step, tax_value, txA,
      round2, roundHalfEven]
    norm_num [Int.fract]
  · simp [estimateTax_spec, fetchW, infer_tax_step, tax_value, txA, txB,
      round2, roundHalfEven]
    norm_num [Int.fract]

/-- Claim C4, amended: `infer_tax` requests exactly one page — page 1, with
`offset=1000` and `sort=desc` (newest first) — and its estimate depends only on
the fetch outcome of that page. -/
theorem infer_tax_single_page :
    infer_tax_page = 1 ∧ infer_tax_offset = 1000 ∧ infer_tax_sort = "desc" ∧
    ∀ (fetch fetch' : ℕ → FetchOutcome) (contract_address action : String),
      fetch 1 = fetch' 1 →
      infer_tax fetch contract_address action =
        infer_tax fetch' contract_address action := by
  refine ⟨rfl, rfl, rfl, fun fetch fetch' contract_address action h => ?_⟩
  unfold infer_tax
  simp only [infer_tax_page]
  rw [h]

/-- Claim C5: the transaction loop of `infer_tax` counts exactly the records with
`value > 0`, gas-cost ratio at most 1 and the endpoint condition of the action
(buy: `to ≠ address`; sell: `from ≠ address`; transfer: both), and when at least
one record counts the result is `round(sum/count * 100, 2)`. -/
theorem infer_tax_counted_records (txs : List TransferRecord)
    (contract_address action : String) :
    txs.foldl (infer_tax_step contract_address action) (0, 0) =
      (((txs.filter (countsToward contract_address action)).map tax_value).sum,
        (txs.filter (countsToward contract_address action)).length) ∧
    (0 < (txs.filter (countsToward contract_address action)).length →
      infer_tax (fun _ => .ok txs) contract_address action =
        .percent (round2
          (((txs.filter (countsToward contract_address action)).map tax_value).sum /
            ((txs.filter (countsToward contract_address action)).length : ℚ) * 100))) := by
  have hfold := foldl_infer_tax_step contract_address action txs (0, 0)
  simp only [zero_add] at hfold
  refine ⟨hfold, fun hpos => ?_⟩
  have hfold0 : List.foldl (infer_tax_step contract_address action) 0 txs =
      (((txs.filter (countsToward contract_address action)).map tax_value).sum,
        (txs.filter (countsToward contract_address action)).length) := hfold
  simp [infer_tax, hfold0, hpos]

/-- Claim C6: evaluation of the pagination loop at the failing endpoint. Against
an endpoint that returns a successful non-empty page for every page number,
`get_token_holders` never reaches its exit condition, whatever iteration budget
it is observed for — the loop enforces no maximum page count. -/
theorem get_token_holders_endless_never_terminates (fuel : ℕ) :
    get_token_holders endlessPages fuel = none := by
  unfold get_token_holders
  rw [get_token_holders_loop_endless]
  rfl

/-- Claim C7: conservation of the holder fold — after folding any transfer
sequence into the empty ledger and before pruning non-positive balances, the
balances over all accounts sum to 0. -/
theorem holder_fold_conservation (txs : List TransferRecord) :
    total_supply_of (fold_transfers [] txs) = 0 := by
  rw [total_supply_fold_transfers]
  rfl

/-- Claim C8: the two divisions of the holder analyzer are guarded — with no
holders the suspicious ratio is 0, and with zero observed total supply the
concentration score is 0. -/
theorem analyze_holders_division_guards (holders_data : HolderMap) :
    (holders_data.length = 0 → suspicious_ratio_of holders_data = 0) ∧
    (total_supply_of holders_data = 0 → concentration_score_of holders_data = 0) := by
  constructor
  · intro h
    simp [suspicious_ratio_of, h]
  · intro h
    simp [concentration_score_of, h]

/-- Claim C9: `is_contract_verified` never returns `False`: `get_contract_abi`
converts the not-verified case into an error dictionary instead of raising
`ContractNotVerifiedError`, so whenever it returns normally the verification
flag is `True` and the `source_code_status` of the verdict is `"open_source"`. -/
theorem is_contract_verified_never_false (f : AbiFetch) :
    is_contract_verified f ≠ Except.ok false ∧
    ∀ r, get_contract_abi f = .ok r →
      is_contract_verified f = .ok true ∧ source_status_of f = .ok "open_source" := by
  constructor
  · cases f with
    | proxyError => simp [is_contract_verified, get_contract_abi]
    | otherRequestError => simp [is_contract_verified, get_contract_abi]
    | http status_code api_status result =>
      simp only [is_contract_verified, get_contract_abi]
      split_ifs <;> simp
  · intro r hr
    have hv : is_contract_verified f = .ok true := by
      simp [is_contract_verified, hr]
    refine ⟨hv, ?_⟩
    simp only [source_status_of, hv]
    rfl

/-- Claim C10: whenever `infer_tax` returns a numeric percentage, it lies in
`[0, 100]`: every counted ratio is non-negative and at most 1, so the rounded
average of `ratio * 100` cannot leave the interval. -/
theorem infer_tax_percent_in_range (fetch : ℕ → FetchOutcome)
    (contract_address action : String) (q : ℚ)
    (h : infer_tax fetch contract_address action = .percent q) :
    0 ≤ q ∧ q ≤ 100 := by
  unfold infer_tax at h
  cases hf : fetch infer_tax_page <;> rw [hf] at h
  case raises => exact absurd h (by simp)
  case httpError code => exact absurd h (by simp)
  case apiError => exact absurd h (by simp)
  case ok txs =>
    simp only [foldl_infer_tax_step contract_address action txs (0, 0),
      zero_add] at h
    by_cases hl : 0 < (txs.filter (countsToward contract_address action)).length
    · rw [if_pos hl] at h
      have hq : round2
          (((txs.filter (countsToward contract_address action)).map tax_value).sum /
            ((txs.filter (countsToward contract_address action)).length : ℚ) * 100) = q := by
        simpa using h
      have hS0 : 0 ≤ ((txs.filter (countsToward contract_address action)).map tax_value).sum := by
        apply List.sum_nonneg
        intro x hx
        obtain ⟨tx, _, rfl⟩ := List.mem_map.mp hx
        exact tax_value_nonneg tx
      have hS1 : ((txs.filter (countsToward contract_address action)).map tax_value).sum ≤
          ((txs.filter (countsToward contract_address action)).length : ℚ) := by
        have h2 := List.sum_le_card_nsmul
          ((txs.filter (countsToward contract_address action)).map tax_value) 1 ?_
        · simpa [nsmul_eq_mul] using h2
        · intro x hx
          obtain ⟨tx, htx, rfl⟩ := List.mem_map.mp hx
          exact tax_value_le_one_of_countsToward contract_address action tx
            (List.of_mem_filter htx)
      have hlen : (0 : ℚ) < ((txs.filter (countsToward contract_address action)).length : ℚ) := by
        exact_mod_cast hl
      have havg0 : 0 ≤ ((txs.filter (countsToward contract_address action)).map tax_value).sum /
          ((txs.filter (countsToward contract_address action)).length : ℚ) :=
        div_nonneg hS0 (le_of_lt hlen)
      have havg1 : ((txs.filter (countsToward contract_address action)).map tax_value).sum /
          ((txs.filter (countsToward contract_address action)).length : ℚ) ≤ 1 :=
        (div_le_one hlen).mpr hS1
      rw [← hq]
      constructor
      · exact round2_nonneg _ (by nlinarith)
      · exact round2_le_100 _ (by nlinarith)
    · rw [if_neg hl] at h
      have hq : (0 : ℚ) = q := by simpa using h
      rw [← hq]
      norm_num

/-- Witness for claim C10 at a concrete input: `infer_tax` on one record of
gas-cost ratio `1/2` returns 50, which the theorem places in `[0, 100]`. -/
theorem infer_tax_percent_in_range_witness : (0 : ℚ) ≤ 50 ∧ (50 : ℚ) ≤ 100 := by
  refine infer_tax_percent_in_range (fun _ => .ok [txA]) "0xcccc" "buy" 50 ?_
  simp [infer_tax, infer_tax_page, infer_tax_step, tax_value, txA,
    round2, roundHalfEven]
  norm_num [Int.fract]

end HoneypotChecker
